import Mathlib

/-!
Verification of the acceleration-analysis pipeline: CSV loader
(`load_acceleration_data`), Welch PSD estimator (`compute_welch_psd`,
built on scipy.signal.welch with its default Hann window, constant
detrend, one-sided density scaling and mean averaging), and the
temporary-file handling of the upload UI.

Lists of rationals model the tabular CSV data; lists of reals model the
floating-point signal and spectra.
-/

/-! ## Generic list helpers: first-occurrence argmax (np.argmax) -/

/-- Index of the first occurrence of the maximum of a list, 0 on the empty
list; this is the semantics of `np.argmax`. -/
def argmaxIdx {α : Type} [LinearOrder α] : List α → ℕ
  | [] => 0
  | x :: xs =>
    let i := argmaxIdx xs
    if x < xs.getD i x then i + 1 else 0

/-- `getD` at an in-range index does not depend on the default. -/
theorem getD_default_irrel {α : Type} : ∀ (l : List α) (j : ℕ) (d d' : α),
    j < l.length → l.getD j d = l.getD j d'
  | [], j, d, d', h => absurd h (by simp)
  | _ :: _, 0, _, _, _ => rfl
  | _ :: xs, j + 1, d, d', h =>
    getD_default_irrel xs j d d' (Nat.lt_of_succ_lt_succ h)

/-- `getD` on a mapped list at an in-range index. -/
theorem getD_map {α β : Type} (f : α → β) : ∀ (l : List α) (j : ℕ) (d : α) (e : β),
    j < l.length → (l.map f).getD j e = f (l.getD j d)
  | [], j, _, _, h => absurd h (by simp)
  | _ :: _, 0, _, _, _ => rfl
  | _ :: xs, j + 1, d, e, h =>
    getD_map f xs j d e (Nat.lt_of_succ_lt_succ h)

/-- `getD` on a zipWith at an index in range of both lists. -/
theorem getD_zipWith {α : Type} (f : α → α → α) :
    ∀ (l₁ l₂ : List α) (j : ℕ) (d : α), j < l₁.length → j < l₂.length →
    (List.zipWith f l₁ l₂).getD j d = f (l₁.getD j d) (l₂.getD j d)
  | [], _, j, _, h, _ => absurd h (by simp)
  | _ :: _, [], j, _, _, h => absurd h (by simp)
  | _ :: _, _ :: _, 0, _, _, _ => rfl
  | _ :: xs, _ :: ys, j + 1, d, h₁, h₂ =>
    getD_zipWith f xs ys j d (Nat.lt_of_succ_lt_succ h₁) (Nat.lt_of_succ_lt_succ h₂)

/-- The argmax index is in range on a nonempty list. -/
theorem argmaxIdx_lt_length {α : Type} [LinearOrder α] :
    ∀ (l : List α), l ≠ [] → argmaxIdx l < l.length
  | [], h => absurd rfl h
  | x :: xs, _ => by
    show (if x < xs.getD (argmaxIdx xs) x then argmaxIdx xs + 1 else 0) < xs.length + 1
    by_cases hc : x < xs.getD (argmaxIdx xs) x
    · have hxs : xs ≠ [] := by
        intro he
        rw [he] at hc
        exact lt_irrefl x hc
      simp only [hc, if_true]
      exact Nat.succ_lt_succ (argmaxIdx_lt_length xs hxs)
    · simp only [hc, if_false]
      exact Nat.succ_pos _

/-- Every in-range entry is bounded by the entry at the argmax index. -/
theorem getD_le_getD_argmaxIdx {α : Type} [LinearOrder α] :
    ∀ (l : List α) (j : ℕ) (d : α), j < l.length →
    l.getD j d ≤ l.getD (argmaxIdx l) d
  | [], j, _, h => absurd h (by simp)
  | x :: xs, j, d, h => by
    show (x :: xs).getD j d ≤
      (x :: xs).getD (if x < xs.getD (argmaxIdx xs) x then argmaxIdx xs + 1 else 0) d
    by_cases hc : x < xs.getD (argmaxIdx xs) x
    · have hxs : xs ≠ [] := by
        intro he
        rw [he] at hc
        exact lt_irrefl x hc
      have hi : argmaxIdx xs < xs.length := argmaxIdx_lt_length xs hxs
      simp only [hc, if_true]
      cases j with
      | zero =>
        show x ≤ xs.getD (argmaxIdx xs) d
        calc x ≤ xs.getD (argmaxIdx xs) x := le_of_lt hc
        _ = xs.getD (argmaxIdx xs) d := getD_default_irrel xs _ x d hi
      | succ k =>
        exact getD_le_getD_argmaxIdx xs k d (Nat.lt_of_succ_lt_succ h)
    · simp only [hc, if_false]
      cases j with
      | zero => exact le_refl x
      | succ k =>
        have hk : k < xs.length := Nat.lt_of_succ_lt_succ h
        have hxs : xs ≠ [] := by
          intro he
          rw [he] at hk
          exact Nat.not_lt_zero k hk
        have hi : argmaxIdx xs < xs.length := argmaxIdx_lt_length xs hxs
        calc xs.getD k d ≤ xs.getD (argmaxIdx xs) d :=
          getD_le_getD_argmaxIdx xs k d hk
        _ = xs.getD (argmaxIdx xs) x := getD_default_irrel xs _ d x hi
        _ ≤ x := le_of_not_lt hc

/-- Entries strictly before the argmax index are strictly below the maximum:
`argmaxIdx` reports the first occurrence of the maximum. -/
theorem getD_lt_of_lt_argmaxIdx {α : Type} [LinearOrder α] :
    ∀ (l : List α) (j : ℕ) (d : α), j < argmaxIdx l →
    l.getD j d < l.getD (argmaxIdx l) d
  | [], j, _, h => absurd h (by simp [argmaxIdx])
  | x :: xs, j, d, h => by
    by_cases hc : x < xs.getD (argmaxIdx xs) x
    · have hxs : xs ≠ [] := by
        intro he
        rw [he] at hc
        exact lt_irrefl x hc
      have hi : argmaxIdx xs < xs.length := argmaxIdx_lt_length xs hxs
      have hidx : argmaxIdx (x :: xs) = argmaxIdx xs + 1 := by
        show (if x < xs.getD (argmaxIdx xs) x then argmaxIdx xs + 1 else 0) = _
        simp only [hc, if_true]
      rw [hidx] at h ⊢
      cases j with
      | zero =>
        show x < xs.getD (argmaxIdx xs) d
        calc x < xs.getD (argmaxIdx xs) x := hc
        _ = xs.getD (argmaxIdx xs) d := getD_default_irrel xs _ x d hi
      | succ k =>
        exact getD_lt_of_lt_argmaxIdx xs k d (Nat.lt_of_succ_lt_succ h)
    · have hidx : argmaxIdx (x :: xs) = 0 := by
        show (if x < xs.getD (argmaxIdx xs) x then argmaxIdx xs + 1 else 0) = 0
        simp only [hc, if_false]
      rw [hidx] at h
      exact absurd h (Nat.not_lt_zero j)

/-! ## Data loader (`load_acceleration_data` in acceleration_analysis.py)

`pd.read_csv` yields a table with a header row naming the columns and
numeric data rows; `np.shape(data)[1]` is the number of columns, i.e. the
header length.  `data.iloc[:, k].values` extracts column `k` of the data
rows. -/

/-- A parsed CSV table: header row (column names) and numeric data rows. -/
structure DataFrame where
  header : List String
  rows : List (List ℚ)
deriving DecidableEq

/-- Number of columns of the table, `np.shape(data)[1]`. -/
def DataFrame.colnum (df : DataFrame) : ℕ := df.header.length

/-- Column `j` of the data rows, `data.iloc[:, j].values`. -/
def DataFrame.col (df : DataFrame) (j : ℕ) : List ℚ :=
  df.rows.map (fun r => r.getD j 0)

/-- The message of the ValueError raised on an unsupported column count. -/
def unsupportedMsg (n : ℕ) : String :=
  "Expected 4 or 5 columns, got " ++ toString n

/-- `load_acceleration_data`: select the three acceleration channels by
column position from the column count, or fail. -/
def load_acceleration_data (df : DataFrame) :
    Except String (List ℚ × List ℚ × List ℚ × ℕ) :=
  let colnum := df.colnum
  if colnum = 5 then
    Except.ok (df.col 2, df.col 3, df.col 4, colnum)
  else if colnum = 4 then
    Except.ok (df.col 1, df.col 2, df.col 3, colnum)
  else
    Except.error (unsupportedMsg colnum)

/-! ## Welch PSD estimation (`scipy.signal.welch`, defaults used by the
repository: window='hann' (periodic), detrend='constant', nfft=nperseg,
return_onesided=True, scaling='density', average='mean')

The floating-point arithmetic of the library is idealised over ℝ/ℂ.
When `nperseg` exceeds the input length scipy shrinks it to that length
(`min` below); segments start at multiples of `nperseg - noverlap`. -/

noncomputable section

/-- Periodic (sym=False) Hann window of length `n` at position `j`. -/
def hannWin (n j : ℕ) : ℝ :=
  1 / 2 - 1 / 2 * Real.cos (2 * Real.pi * j / n)

/-- Sum of squares of the Hann window, the density normalisation factor. -/
def winSumSq (n : ℕ) : ℝ :=
  ∑ j ∈ Finset.range n, (hannWin n j) ^ 2

/-- Mean of the segment of `x` of length `nps` starting at `s`
(detrend='constant' subtracts it). -/
def segMean (x : List ℝ) (s nps : ℕ) : ℝ :=
  (∑ j ∈ Finset.range nps, x.getD (s + j) 0) / nps

/-- Value `j` of the detrended, Hann-windowed segment starting at `s`. -/
def segVal (x : List ℝ) (s nps j : ℕ) : ℝ :=
  (x.getD (s + j) 0 - segMean x s nps) * hannWin nps j

/-- Discrete Fourier coefficient `k` of the windowed segment (rfft). -/
def segDFT (x : List ℝ) (s nps k : ℕ) : ℂ :=
  ∑ j ∈ Finset.range nps,
    (segVal x s nps j : ℂ) *
      Complex.exp (-(2 * (Real.pi : ℂ) * Complex.I * (j * k)) / (nps : ℂ))

/-- One-sided doubling factor: DC and (for even `nps`) Nyquist bins are not
doubled. -/
def sideFactor (nps k : ℕ) : ℝ :=
  if k = 0 ∨ 2 * k = nps then 1 else 2

/-- Density-scaled one-sided periodogram of a single segment at bin `k`. -/
def segPSD (x : List ℝ) (fs : ℝ) (s nps k : ℕ) : ℝ :=
  sideFactor nps k * Complex.normSq (segDFT x s nps k) / (fs * winSumSq nps)

/-- Effective segment length: scipy shrinks `nperseg` to the input length. -/
def npsOf (x : List ℝ) (nperseg : ℕ) : ℕ := min nperseg x.length

/-- Number of segments `(len - nperseg) // step + 1` with
`step = nperseg - noverlap`. -/
def numSegs (x : List ℝ) (nperseg noverlap : ℕ) : ℕ :=
  let nps := npsOf x nperseg
  let step := nps - noverlap
  if step = 0 then 0 else (x.length - nps) / step + 1

/-- Welch PSD estimate at frequency bin `k`: mean of the per-segment
periodograms. -/
def welchPSD (x : List ℝ) (fs : ℝ) (nperseg noverlap k : ℕ) : ℝ :=
  let nps := npsOf x nperseg
  let step := nps - noverlap
  (∑ i ∈ Finset.range (numSegs x nperseg noverlap), segPSD x fs (i * step) nps k) /
    (numSegs x nperseg noverlap : ℝ)

/-- `signal.welch`: the pair of the frequency array
(`rfftfreq`: `k * fs / nperseg` for `k = 0 .. nperseg // 2`) and the PSD
array, both of length `nperseg // 2 + 1`. -/
def welch (x : List ℝ) (fs : ℝ) (nperseg noverlap : ℕ) : List ℝ × List ℝ :=
  ((List.range (npsOf x nperseg / 2 + 1)).map
      (fun (k : ℕ) => (k : ℝ) * fs / (npsOf x nperseg : ℝ)),
   (List.range (npsOf x nperseg / 2 + 1)).map
      (fun k => welchPSD x fs nperseg noverlap k))

/-! ## `compute_welch_psd` (acceleration_analysis.py) -/

/-- The dictionary returned by `compute_welch_psd`. -/
structure WelchResult where
  frequency : List ℝ
  psd_x : List ℝ
  psd_y : List ℝ
  psd_z : List ℝ
  psd_total : List ℝ
  mode_1_freq : ℝ
  mode_1_index : ℕ
  sampling_rate : ℝ

/-- `compute_welch_psd`: per-axis Welch PSD, elementwise sum
(`Pxx_welx + Pxx_wely + Pxx_welz`; numpy requires equal shapes, modelled by
`zipWith`), dominant bin `np.argmax(abs(Pxx_total))`, and `fwx[argmax]`. -/
def compute_welch_psd (Accelx Accely Accelz : List ℝ) (fs : ℝ)
    (nperseg noverlap : ℕ) : WelchResult :=
  let fwx := (welch Accelx fs nperseg noverlap).1
  let Pxx_welx := (welch Accelx fs nperseg noverlap).2
  let Pxx_wely := (welch Accely fs nperseg noverlap).2
  let Pxx_welz := (welch Accelz fs nperseg noverlap).2
  let Pxx_total :=
    List.zipWith (fun a b => a + b)
      (List.zipWith (fun a b => a + b) Pxx_welx Pxx_wely) Pxx_welz
  let argmax := argmaxIdx (Pxx_total.map (fun v => |v|))
  { frequency := fwx
    psd_x := Pxx_welx
    psd_y := Pxx_wely
    psd_z := Pxx_welz
    psd_total := Pxx_total
    mode_1_freq := fwx.getD argmax 0
    mode_1_index := argmax
    sampling_rate := fs }

end

/-! ## Upload handling (streamlit_app.py, lines 81-111)

A temporary file is created (`NamedTemporaryFile(delete=False)`), the
loader runs inside `try`, `ValueError` and any other exception are caught,
and the `finally` block removes the file when it still exists.  The model
tracks whether the temporary file exists and which branch ran. -/

/-- Outcome of the `try` body: successful load, `ValueError` from the
loader, or any other exception. -/
inductive TryOutcome
  | ok
  | valueError (msg : String)
  | otherError (msg : String)
deriving DecidableEq

/-- State after the upload-handling block. -/
structure UploadState where
  tmpExists : Bool
  data_loaded : Bool
  errorShown : Bool
deriving DecidableEq

/-- The outcome of the `try` body on a parsed table: `load_acceleration_data`
either returns (success path) or raises `ValueError`; `raisesOther` models
any other exception escaping the body. -/
def tryOutcome (df : DataFrame) (raisesOther : Bool) : TryOutcome :=
  if raisesOther then TryOutcome.otherError "unexpected"
  else
    match load_acceleration_data df with
    | Except.ok _ => TryOutcome.ok
    | Except.error msg => TryOutcome.valueError msg

/-- The upload-handling block: create the temporary file, run the `try`
body, catch either exception kind, then `finally` remove the file if it
exists. -/
def handleUpload (df : DataFrame) (raisesOther : Bool) : UploadState :=
  let s0 : UploadState := { tmpExists := true, data_loaded := false, errorShown := false }
  let s1 :=
    match tryOutcome df raisesOther with
    | TryOutcome.ok => { s0 with data_loaded := true }
    | TryOutcome.valueError _ => { s0 with data_loaded := false, errorShown := true }
    | TryOutcome.otherError _ => { s0 with data_loaded := false, errorShown := true }
  if s1.tmpExists then { s1 with tmpExists := false } else s1

/-! ## Concrete sample inputs used by the witnesses -/

/-- A 5-column table with two data rows. -/
def sampleDf5 : DataFrame :=
  { header := ["idx", "time", "ax", "ay", "az"]
    rows := [[0, 0, 1, 2, 3], [1, 1, 4, 5, 6]] }

/-- A 4-column table with two data rows. -/
def sampleDf4 : DataFrame :=
  { header := ["time", "ax", "ay", "az"]
    rows := [[0, 1, 2, 3], [1, 4, 5, 6]] }

/-- A 3-column table, the unsupported-format scenario. -/
def sampleDf3 : DataFrame :=
  { header := ["a", "b", "c"]
    rows := [[0, 1, 2]] }

/-- A concrete four-sample signal used to instantiate the estimator. -/
noncomputable def sampleSig : List ℝ := [1, 0, -1, 0]

/-- The all-zero four-sample signal (used to exhibit a PSD with ties). -/
noncomputable def zeroSig : List ℝ := [0, 0, 0, 0]

/-! ## Helper lemmas: field and length facts about the embedding -/

theorem welch_fst_def (x : List ℝ) (fs : ℝ) (n o : ℕ) :
    (welch x fs n o).1 = (List.range (npsOf x n / 2 + 1)).map
      (fun (k : ℕ) => (k : ℝ) * fs / (npsOf x n : ℝ)) := rfl

theorem welch_fst_length (x : List ℝ) (fs : ℝ) (n o : ℕ) :
    (welch x fs n o).1.length = npsOf x n / 2 + 1 := by
  rw [welch_fst_def, List.length_map, List.length_range]

theorem welch_snd_length (x : List ℝ) (fs : ℝ) (n o : ℕ) :
    (welch x fs n o).2.length = npsOf x n / 2 + 1 := by
  show ((List.range (npsOf x n / 2 + 1)).map
      (fun k => welchPSD x fs n o k)).length = npsOf x n / 2 + 1
  rw [List.length_map, List.length_range]

theorem cw_frequency (ax ay az : List ℝ) (fs : ℝ) (n o : ℕ) :
    (compute_welch_psd ax ay az fs n o).frequency = (welch ax fs n o).1 := rfl

theorem cw_psd_x (ax ay az : List ℝ) (fs : ℝ) (n o : ℕ) :
    (compute_welch_psd ax ay az fs n o).psd_x = (welch ax fs n o).2 := rfl

theorem cw_psd_y (ax ay az : List ℝ) (fs : ℝ) (n o : ℕ) :
    (compute_welch_psd ax ay az fs n o).psd_y = (welch ay fs n o).2 := rfl

theorem cw_psd_z (ax ay az : List ℝ) (fs : ℝ) (n o : ℕ) :
    (compute_welch_psd ax ay az fs n o).psd_z = (welch az fs n o).2 := rfl

theorem cw_psd_total (ax ay az : List ℝ) (fs : ℝ) (n o : ℕ) :
    (compute_welch_psd ax ay az fs n o).psd_total =
      List.zipWith (fun a b => a + b)
        (List.zipWith (fun a b => a + b) (welch ax fs n o).2 (welch ay fs n o).2)
        (welch az fs n o).2 := rfl

theorem cw_mode_1_index (ax ay az : List ℝ) (fs : ℝ) (n o : ℕ) :
    (compute_welch_psd ax ay az fs n o).mode_1_index =
      argmaxIdx ((compute_welch_psd ax ay az fs n o).psd_total.map
        (fun v => |v|)) := rfl

theorem cw_mode_1_freq (ax ay az : List ℝ) (fs : ℝ) (n o : ℕ) :
    (compute_welch_psd ax ay az fs n o).mode_1_freq =
      (compute_welch_psd ax ay az fs n o).frequency.getD
        (compute_welch_psd ax ay az fs n o).mode_1_index 0 := rfl

theorem npsOf_congr (x y : List ℝ) (n : ℕ) (h : x.length = y.length) :
    npsOf x n = npsOf y n := by
  unfold npsOf
  rw [h]

theorem cw_psd_total_length (ax ay az : List ℝ) (fs : ℝ) (n o : ℕ)
    (h1 : ax.length = ay.length) (h2 : ay.length = az.length) :
    (compute_welch_psd ax ay az fs n o).psd_total.length = npsOf ax n / 2 + 1 := by
  rw [cw_psd_total, List.length_zipWith, List.length_zipWith,
    welch_snd_length, welch_snd_length, welch_snd_length,
    npsOf_congr ay ax n h1.symm, npsOf_congr az ax n (h1.trans h2).symm,
    min_self, min_self]

theorem zeroSig_getD (m : ℕ) : zeroSig.getD m 0 = 0 := by
  cases m with
  | zero => rfl
  | succ m =>
    cases m with
    | zero => rfl
    | succ m =>
      cases m with
      | zero => rfl
      | succ m =>
        cases m with
        | zero => rfl
        | succ m => exact List.getD_eq_default _ _ (by simp [zeroSig])

theorem segMean_zero (s nps : ℕ) : segMean zeroSig s nps = 0 := by
  unfold segMean
  rw [Finset.sum_congr rfl (fun j _ => zeroSig_getD (s + j))]
  simp

theorem segVal_zero (s nps j : ℕ) : segVal zeroSig s nps j = 0 := by
  unfold segVal
  rw [zeroSig_getD, segMean_zero]
  ring

theorem segDFT_zero (s nps k : ℕ) : segDFT zeroSig s nps k = 0 := by
  unfold segDFT
  refine Finset.sum_eq_zero fun j _ => ?_
  rw [segVal_zero]
  simp

theorem segPSD_zero (fs : ℝ) (s nps k : ℕ) : segPSD zeroSig fs s nps k = 0 := by
  unfold segPSD
  rw [segDFT_zero]
  simp

theorem welchPSD_zero (fs : ℝ) (n o k : ℕ) : welchPSD zeroSig fs n o k = 0 := by
  simp [welchPSD, segPSD_zero]

theorem welch_zero_snd : (welch zeroSig 1 2 1).2 = [0, 0] := by
  show (List.range (npsOf zeroSig 2 / 2 + 1)).map
      (fun k => welchPSD zeroSig 1 2 1 k) = [0, 0]
  have hnps : npsOf zeroSig 2 = 2 := rfl
  rw [hnps]
  norm_num [List.range_succ, welchPSD_zero]

theorem psd_total_zero :
    (compute_welch_psd zeroSig zeroSig zeroSig 1 2 1).psd_total = [0, 0] := by
  rw [cw_psd_total, welch_zero_snd]
  norm_num

theorem psd_total_zero_getD (m : ℕ) :
    (compute_welch_psd zeroSig zeroSig zeroSig 1 2 1).psd_total.getD m 0 = 0 := by
  rw [psd_total_zero]
  cases m with
  | zero => rfl
  | succ m =>
    cases m with
    | zero => rfl
    | succ m => exact List.getD_eq_default _ _ (by simp)

/-- Specification of `argmaxIdx` composed with `abs`: the returned index is
in range, maximises the absolute value, and strictly dominates every
earlier entry. -/
theorem argmax_abs_spec (T : List ℝ) (hT : 0 < T.length) :
    argmaxIdx (T.map (fun v => |v|)) < T.length ∧
    (∀ j, j < T.length →
      |T.getD j 0| ≤ |T.getD (argmaxIdx (T.map (fun v => |v|))) 0|) ∧
    (∀ j, j < argmaxIdx (T.map (fun v => |v|)) →
      |T.getD j 0| < |T.getD (argmaxIdx (T.map (fun v => |v|))) 0|) := by
  have hne : T.map (fun v => |v|) ≠ [] := by
    intro he
    have h0 : (T.map (fun v => |v|)).length = 0 := by rw [he]; rfl
    rw [List.length_map] at h0
    omega
  have hb : argmaxIdx (T.map (fun v => |v|)) < T.length := by
    have h := argmaxIdx_lt_length _ hne
    rwa [List.length_map] at h
  refine ⟨hb, ?_, ?_⟩
  · intro j hj
    have h := getD_le_getD_argmaxIdx (T.map (fun v => |v|)) j 0
      (by rw [List.length_map]; exact hj)
    rwa [getD_map (fun v => |v|) T j 0 0 hj,
      getD_map (fun v => |v|) T _ 0 0 hb] at h
  · intro j hj
    have h := getD_lt_of_lt_argmaxIdx (T.map (fun v => |v|)) j 0 hj
    have hjT : j < T.length := lt_trans hj hb
    rwa [getD_map (fun v => |v|) T j 0 0 hjT,
      getD_map (fun v => |v|) T _ 0 0 hb] at h

/-! ## Claim theorems -/

/-- Claim C1: for every triple of equal-length inputs and parameters,
`compute_welch_psd` reports as `mode_1_index` an in-range index whose
combined-PSD absolute value dominates every bin, and `mode_1_freq` is the
frequency array at that index. -/
theorem mode_is_argmax_of_abs_psd_total (ax ay az : List ℝ) (fs : ℝ)
    (nperseg noverlap : ℕ)
    (h1 : ax.length = ay.length) (h2 : ay.length = az.length) :
    (compute_welch_psd ax ay az fs nperseg noverlap).mode_1_index <
      (compute_welch_psd ax ay az fs nperseg noverlap).psd_total.length ∧
    (∀ j, j < (compute_welch_psd ax ay az fs nperseg noverlap).psd_total.length →
      |(compute_welch_psd ax ay az fs nperseg noverlap).psd_total.getD j 0| ≤
        |(compute_welch_psd ax ay az fs nperseg noverlap).psd_total.getD
          (compute_welch_psd ax ay az fs nperseg noverlap).mode_1_index 0|) ∧
    (compute_welch_psd ax ay az fs nperseg noverlap).mode_1_freq =
      (compute_welch_psd ax ay az fs nperseg noverlap).frequency.getD
        (compute_welch_psd ax ay az fs nperseg noverlap).mode_1_index 0 := by
  have hlen := cw_psd_total_length ax ay az fs nperseg noverlap h1 h2
  have hpos : 0 < (compute_welch_psd ax ay az fs nperseg noverlap).psd_total.length := by
    rw [hlen]
    exact Nat.succ_pos _
  obtain ⟨hb, hmax, _⟩ := argmax_abs_spec _ hpos
  refine ⟨?_, ?_, cw_mode_1_freq ax ay az fs nperseg noverlap⟩
  · rw [cw_mode_1_index]
    exact hb
  · intro j hj
    rw [cw_mode_1_index]
    exact hmax j hj

theorem mode_is_argmax_of_abs_psd_total_w :
    sampleSig.length = sampleSig.length ∧
    (compute_welch_psd sampleSig sampleSig sampleSig 5000 2 1).mode_1_index <
      (compute_welch_psd sampleSig sampleSig sampleSig 5000 2 1).psd_total.length :=
  ⟨rfl, (mode_is_argmax_of_abs_psd_total sampleSig sampleSig sampleSig
    5000 2 1 rfl rfl).1⟩

/-- Claim C2: for every triple of equal-length inputs and parameters, the
combined PSD array has the same length as each per-axis PSD array and
equals their elementwise sum at every bin. -/
theorem psd_total_eq_sum_of_axes (ax ay az : List ℝ) (fs : ℝ)
    (nperseg noverlap : ℕ)
    (h1 : ax.length = ay.length) (h2 : ay.length = az.length) :
    ((compute_welch_psd ax ay az fs nperseg noverlap).psd_total.length =
       (compute_welch_psd ax ay az fs nperseg noverlap).psd_x.length ∧
     (compute_welch_psd ax ay az fs nperseg noverlap).psd_total.length =
       (compute_welch_psd ax ay az fs nperseg noverlap).psd_y.length ∧
     (compute_welch_psd ax ay az fs nperseg noverlap).psd_total.length =
       (compute_welch_psd ax ay az fs nperseg noverlap).psd_z.length) ∧
    ∀ j, j < (compute_welch_psd ax ay az fs nperseg noverlap).psd_total.length →
      (compute_welch_psd ax ay az fs nperseg noverlap).psd_total.getD j 0 =
        (compute_welch_psd ax ay az fs nperseg noverlap).psd_x.getD j 0 +
        (compute_welch_psd ax ay az fs nperseg noverlap).psd_y.getD j 0 +
        (compute_welch_psd ax ay az fs nperseg noverlap).psd_z.getD j 0 := by
  have hpx : (welch ax fs nperseg noverlap).2.length = npsOf ax nperseg / 2 + 1 :=
    welch_snd_length ax fs nperseg noverlap
  have hpy : (welch ay fs nperseg noverlap).2.length = npsOf ax nperseg / 2 + 1 := by
    rw [welch_snd_length, npsOf_congr ay ax nperseg h1.symm]
  have hpz : (welch az fs nperseg noverlap).2.length = npsOf ax nperseg / 2 + 1 := by
    rw [welch_snd_length, npsOf_congr az ax nperseg (h1.trans h2).symm]
  have ht := cw_psd_total_length ax ay az fs nperseg noverlap h1 h2
  have hzw : (List.zipWith (fun a b => a + b) (welch ax fs nperseg noverlap).2
      (welch ay fs nperseg noverlap).2).length = npsOf ax nperseg / 2 + 1 := by
    rw [List.length_zipWith, hpx, hpy, min_self]
  refine ⟨⟨by rw [ht, cw_psd_x, hpx], by rw [ht, cw_psd_y, hpy],
    by rw [ht, cw_psd_z, hpz]⟩, ?_⟩
  intro j hj
  rw [ht] at hj
  rw [cw_psd_total, cw_psd_x, cw_psd_y, cw_psd_z,
    getD_zipWith (fun a b => a + b) _ _ j 0 (by rw [hzw]; exact hj)
      (by rw [hpz]; exact hj),
    getD_zipWith (fun a b => a + b) _ _ j 0 (by rw [hpx]; exact hj)
      (by rw [hpy]; exact hj)]

theorem psd_total_eq_sum_of_axes_w :
    (compute_welch_psd sampleSig sampleSig sampleSig 5000 2 1).psd_total.getD 0 0 =
      (compute_welch_psd sampleSig sampleSig sampleSig 5000 2 1).psd_x.getD 0 0 +
      (compute_welch_psd sampleSig sampleSig sampleSig 5000 2 1).psd_y.getD 0 0 +
      (compute_welch_psd sampleSig sampleSig sampleSig 5000 2 1).psd_z.getD 0 0 :=
  (psd_total_eq_sum_of_axes sampleSig sampleSig sampleSig 5000 2 1 rfl rfl).2 0
    (by rw [cw_psd_total_length sampleSig sampleSig sampleSig 5000 2 1 rfl rfl]
        exact Nat.succ_pos _)

/-- Claim C3: `load_acceleration_data` selects channels purely by column
count: 5 columns gives columns 2, 3, 4 as X, Y, Z; 4 columns gives
columns 1, 2, 3. -/
theorem loader_selects_columns_by_count (df : DataFrame) :
    (df.colnum = 5 → load_acceleration_data df =
      Except.ok (df.col 2, df.col 3, df.col 4, df.colnum)) ∧
    (df.colnum = 4 → load_acceleration_data df =
      Except.ok (df.col 1, df.col 2, df.col 3, df.colnum)) := by
  constructor
  · intro h
    simp [load_acceleration_data, h]
  · intro h
    simp [load_acceleration_data, h]

theorem loader_selects_columns_by_count_w :
    sampleDf5.colnum = 5 ∧
    load_acceleration_data sampleDf5 =
      Except.ok (sampleDf5.col 2, sampleDf5.col 3, sampleDf5.col 4, sampleDf5.colnum) ∧
    sampleDf4.colnum = 4 ∧
    load_acceleration_data sampleDf4 =
      Except.ok (sampleDf4.col 1, sampleDf4.col 2, sampleDf4.col 3, sampleDf4.colnum) :=
  ⟨by decide, (loader_selects_columns_by_count sampleDf5).1 (by decide),
   by decide, (loader_selects_columns_by_count sampleDf4).2 (by decide)⟩

/-- Claim C4: the loader fails exactly when the column count is neither 4
nor 5, and the error message names the actual column count. -/
theorem loader_error_characterisation (df : DataFrame) :
    (load_acceleration_data df = Except.error (unsupportedMsg df.colnum) ↔
      (df.colnum ≠ 4 ∧ df.colnum ≠ 5)) ∧
    (∀ msg, load_acceleration_data df = Except.error msg →
      msg = unsupportedMsg df.colnum) := by
  constructor
  · constructor
    · intro h
      by_cases h5 : df.colnum = 5
      · simp [load_acceleration_data, h5] at h
      · by_cases h4 : df.colnum = 4
        · simp [load_acceleration_data, h5, h4] at h
        · exact ⟨h4, h5⟩
    · intro h
      simp [load_acceleration_data, h.2, h.1]
  · intro msg h
    by_cases h5 : df.colnum = 5
    · simp [load_acceleration_data, h5] at h
    · by_cases h4 : df.colnum = 4
      · simp [load_acceleration_data, h5, h4] at h
      · simp [load_acceleration_data, h5, h4] at h
        exact h.symm

theorem loader_error_characterisation_w :
    sampleDf3.colnum ≠ 4 ∧ sampleDf3.colnum ≠ 5 ∧
    load_acceleration_data sampleDf3 = Except.error (unsupportedMsg 3) :=
  ⟨by decide, by decide,
   (loader_error_characterisation sampleDf3).1.mpr ⟨by decide, by decide⟩⟩

/-- Claim C5: when every axis has at least `nperseg` samples, the frequency
array, the three per-axis PSD arrays and the combined PSD array all have
length `nperseg / 2 + 1`. -/
theorem welch_output_lengths (ax ay az : List ℝ) (fs : ℝ)
    (nperseg noverlap : ℕ) (hx : nperseg ≤ ax.length)
    (hy : nperseg ≤ ay.length) (hz : nperseg ≤ az.length) :
    (compute_welch_psd ax ay az fs nperseg noverlap).frequency.length =
      nperseg / 2 + 1 ∧
    (compute_welch_psd ax ay az fs nperseg noverlap).psd_x.length =
      nperseg / 2 + 1 ∧
    (compute_welch_psd ax ay az fs nperseg noverlap).psd_y.length =
      nperseg / 2 + 1 ∧
    (compute_welch_psd ax ay az fs nperseg noverlap).psd_z.length =
      nperseg / 2 + 1 ∧
    (compute_welch_psd ax ay az fs nperseg noverlap).psd_total.length =
      nperseg / 2 + 1 := by
  have ex : npsOf ax nperseg = nperseg := min_eq_left hx
  have ey : npsOf ay nperseg = nperseg := min_eq_left hy
  have ez : npsOf az nperseg = nperseg := min_eq_left hz
  refine ⟨?_, ?_, ?_, ?_, ?_⟩
  · rw [cw_frequency, welch_fst_length, ex]
  · rw [cw_psd_x, welch_snd_length, ex]
  · rw [cw_psd_y, welch_snd_length, ey]
  · rw [cw_psd_z, welch_snd_length, ez]
  · rw [cw_psd_total, List.length_zipWith, List.length_zipWith,
      welch_snd_length, welch_snd_length, welch_snd_length, ex, ey, ez,
      min_self, min_self]

theorem welch_output_lengths_w :
    2 ≤ sampleSig.length ∧
    (compute_welch_psd sampleSig sampleSig sampleSig 5000 2 1).frequency.length =
      2 / 2 + 1 :=
  ⟨by norm_num [sampleSig],
   (welch_output_lengths sampleSig sampleSig sampleSig 5000 2 1
     (by norm_num [sampleSig]) (by norm_num [sampleSig])
     (by norm_num [sampleSig])).1⟩

/-- Claim C7: `compute_welch_psd` is deterministic: two calls with
identical inputs and parameters produce identical values in every field of
the result. -/
theorem compute_welch_psd_deterministic (ax ay az ax2 ay2 az2 : List ℝ)
    (fs fs2 : ℝ) (nperseg nperseg2 noverlap noverlap2 : ℕ)
    (hx : ax = ax2) (hy : ay = ay2) (hz : az = az2) (hf : fs = fs2)
    (hn : nperseg = nperseg2) (ho : noverlap = noverlap2) :
    (compute_welch_psd ax ay az fs nperseg noverlap).frequency =
      (compute_welch_psd ax2 ay2 az2 fs2 nperseg2 noverlap2).frequency ∧
    (compute_welch_psd ax ay az fs nperseg noverlap).psd_x =
      (compute_welch_psd ax2 ay2 az2 fs2 nperseg2 noverlap2).psd_x ∧
    (compute_welch_psd ax ay az fs nperseg noverlap).psd_y =
      (compute_welch_psd ax2 ay2 az2 fs2 nperseg2 noverlap2).psd_y ∧
    (compute_welch_psd ax ay az fs nperseg noverlap).psd_z =
      (compute_welch_psd ax2 ay2 az2 fs2 nperseg2 noverlap2).psd_z ∧
    (compute_welch_psd ax ay az fs nperseg noverlap).psd_total =
      (compute_welch_psd ax2 ay2 az2 fs2 nperseg2 noverlap2).psd_total ∧
    (compute_welch_psd ax ay az fs nperseg noverlap).mode_1_freq =
      (compute_welch_psd ax2 ay2 az2 fs2 nperseg2 noverlap2).mode_1_freq ∧
    (compute_welch_psd ax ay az fs nperseg noverlap).mode_1_index =
      (compute_welch_psd ax2 ay2 az2 fs2 nperseg2 noverlap2).mode_1_index ∧
    (compute_welch_psd ax ay az fs nperseg noverlap).sampling_rate =
      (compute_welch_psd ax2 ay2 az2 fs2 nperseg2 noverlap2).sampling_rate := by
  subst hx hy hz hf hn ho
  exact ⟨rfl, rfl, rfl, rfl, rfl, rfl, rfl, rfl⟩

theorem compute_welch_psd_deterministic_w :
    sampleSig = sampleSig ∧
    (compute_welch_psd sampleSig sampleSig sampleSig 5000 2 1).mode_1_index =
      (compute_welch_psd sampleSig sampleSig sampleSig 5000 2 1).mode_1_index :=
  ⟨rfl, (compute_welch_psd_deterministic sampleSig sampleSig sampleSig
    sampleSig sampleSig sampleSig 5000 5000 2 2 1 1
    rfl rfl rfl rfl rfl rfl).2.2.2.2.2.2.1⟩

/-- Claim C8: for equal-length inputs with the same Welch parameters, the
three per-axis frequency arrays are pairwise equal, the reported frequency
array is the X-axis one, and the dominant-mode frequency read from either
other axis agrees with the reported one. -/
theorem frequency_axis_shared (ax ay az : List ℝ) (fs : ℝ)
    (nperseg noverlap : ℕ)
    (h1 : ax.length = ay.length) (h2 : ay.length = az.length) :
    (welch ax fs nperseg noverlap).1 = (welch ay fs nperseg noverlap).1 ∧
    (welch ay fs nperseg noverlap).1 = (welch az fs nperseg noverlap).1 ∧
    (compute_welch_psd ax ay az fs nperseg noverlap).frequency =
      (welch ax fs nperseg noverlap).1 ∧
    (compute_welch_psd ax ay az fs nperseg noverlap).mode_1_freq =
      (welch ay fs nperseg noverlap).1.getD
        (compute_welch_psd ax ay az fs nperseg noverlap).mode_1_index 0 ∧
    (compute_welch_psd ax ay az fs nperseg noverlap).mode_1_freq =
      (welch az fs nperseg noverlap).1.getD
        (compute_welch_psd ax ay az fs nperseg noverlap).mode_1_index 0 := by
  have exy : (welch ax fs nperseg noverlap).1 = (welch ay fs nperseg noverlap).1 := by
    rw [welch_fst_def, welch_fst_def, npsOf_congr ax ay nperseg h1]
  have eyz : (welch ay fs nperseg noverlap).1 = (welch az fs nperseg noverlap).1 := by
    rw [welch_fst_def, welch_fst_def, npsOf_congr ay az nperseg h2]
  refine ⟨exy, eyz, cw_frequency ax ay az fs nperseg noverlap, ?_, ?_⟩
  · rw [cw_mode_1_freq, cw_frequency, exy]
  · rw [cw_mode_1_freq, cw_frequency, exy, eyz]

theorem frequency_axis_shared_w :
    (compute_welch_psd sampleSig sampleSig sampleSig 5000 2 1).mode_1_freq =
      (welch sampleSig 5000 2 1).1.getD
        (compute_welch_psd sampleSig sampleSig sampleSig 5000 2 1).mode_1_index 0 :=
  (frequency_axis_shared sampleSig sampleSig sampleSig 5000 2 1 rfl rfl).2.2.2.1

/-- Claim C9: whatever the outcome of the upload-handling block (successful
load, ValueError, or any other exception), the temporary file no longer
exists afterwards. -/
theorem tmp_file_removed_always (df : DataFrame) (raisesOther : Bool) :
    (handleUpload df raisesOther).tmpExists = false := by
  cases h : tryOutcome df raisesOther <;> simp [handleUpload, h]

/-- Claim C10: ties at the dominant mode are broken towards the smallest
index: an in-range bin whose combined-PSD absolute value equals the value
at the reported index can only lie at or after the reported index, which
also carries the reported frequency. -/
theorem mode_index_first_occurrence (ax ay az : List ℝ) (fs : ℝ)
    (nperseg noverlap j : ℕ)
    (h1 : ax.length = ay.length) (h2 : ay.length = az.length)
    (hj : j < (compute_welch_psd ax ay az fs nperseg noverlap).psd_total.length)
    (htie : |(compute_welch_psd ax ay az fs nperseg noverlap).psd_total.getD j 0| =
      |(compute_welch_psd ax ay az fs nperseg noverlap).psd_total.getD
        (compute_welch_psd ax ay az fs nperseg noverlap).mode_1_index 0|) :
    (compute_welch_psd ax ay az fs nperseg noverlap).mode_1_index ≤ j ∧
    (compute_welch_psd ax ay az fs nperseg noverlap).mode_1_freq =
      (compute_welch_psd ax ay az fs nperseg noverlap).frequency.getD
        (compute_welch_psd ax ay az fs nperseg noverlap).mode_1_index 0 := by
  refine ⟨?_, cw_mode_1_freq ax ay az fs nperseg noverlap⟩
  by_contra hlt
  have hlt' : j < (compute_welch_psd ax ay az fs nperseg noverlap).mode_1_index :=
    Nat.lt_of_not_le hlt
  have hpos : 0 < (compute_welch_psd ax ay az fs nperseg noverlap).psd_total.length :=
    Nat.lt_of_le_of_lt (Nat.zero_le j) hj
  obtain ⟨_, _, hstrict⟩ := argmax_abs_spec
    (compute_welch_psd ax ay az fs nperseg noverlap).psd_total hpos
  rw [cw_mode_1_index] at hlt'
  have hne := ne_of_lt (hstrict j hlt')
  rw [← cw_mode_1_index] at hne
  exact hne htie

theorem mode_index_first_occurrence_w :
    (compute_welch_psd zeroSig zeroSig zeroSig 1 2 1).mode_1_index ≤ 0 :=
  (mode_index_first_occurrence zeroSig zeroSig zeroSig 1 2 1 0 rfl rfl
    (by rw [cw_psd_total_length zeroSig zeroSig zeroSig 1 2 1 rfl rfl]
        exact Nat.succ_pos _)
    (by simp only [psd_total_zero_getD])).1
